import Mathlib

/-!
Shallow embedding of `contracts/Farming_Sim_FHE.sol` (contract `FarmingSimFHE`).

Modelling conventions:
* addresses and uint256 values are `Nat`; the zero address is `0`;
* `euint32` ciphertext handles are symbolic terms (`Ct`): a literal produced by
  `FHE.asEuint32` or an addition produced by `FHE.add`; the plaintext semantics
  is addition modulo 2^32; an uninitialized storage slot (handle 0, for which
  `FHE.isInitialized` is false) is `Option.none`;
* `keccak256` is modelled as an ideal injective hash (a constructor), both for
  batch-id derivation and for `_hashCiphertexts`;
* the external decryption oracle supplies the request id, the signature-check
  outcome and the cleartext word as parameters of the corresponding entry points;
* every entry point is a function from the pre-state and its arguments to an
  `OpRes`: the post-state as left by the straight-line execution, the revert
  error if any (requires are checked exactly in source order), and the emitted
  events.  The EVM discards the state of a reverted call: `commit` keeps the
  pre-state whenever an error was raised.
-/

namespace FarmingSimFHE

/-- Addresses modelled as naturals; 0 is the zero address. -/
abbrev Addr := Nat

/-- 2^32, the plaintext modulus of `euint32`. -/
def M32 : Nat := 4294967296

/-- Symbolic `euint32` ciphertext handles: `FHE.asEuint32` literals and
`FHE.add` nodes.  Distinct terms model distinct handles. -/
inductive Ct
  | lit (v : Nat)
  | add (a b : Ct)
deriving DecidableEq

/-- Plaintext semantics of a ciphertext handle: values reduced modulo 2^32. -/
def Ct.eval : Ct → Nat
  | .lit v => v % M32
  | .add a b => (Ct.eval a + Ct.eval b) % M32

/-- Plaintext carried by an accumulator slot; an uninitialized slot reads as 0. -/
def evalOpt : Option Ct → Nat
  | none => 0
  | some t => t.eval

/-- `bytes32` values stored as state hashes: the zero default of the mapping, or
`keccak256(abi.encode(cts, self))` with keccak idealized as injective. -/
inductive B32
  | zero
  | hashOf (cts : List Ct) (self : Addr)
deriving DecidableEq

/-- `_hashCiphertexts` (line 252): `keccak256(abi.encode(cts, address(this)))`. -/
def hashCiphertexts (cts : List Ct) (self : Addr) : B32 := .hashOf cts self

/-- Batch-id derivation of `openBatch` (line 145):
`keccak256(abi.encodePacked(address(this), currentModelVersion, block.timestamp))`,
keccak idealized as an injective pairing. -/
def batchIdOf (self ver now : Nat) : Nat := Nat.pair self (Nat.pair ver now)

/-- The `Batch` struct (lines 56-62).  The Solidity field `exists` is `exists_`. -/
structure Batch where
  exists_ : Bool
  closed : Bool
  createdAt : Nat
  closedAt : Nat
  modelVersion : Nat
deriving DecidableEq

/-- Mapping default for `batches`. -/
def Batch.empty : Batch := ⟨false, false, 0, 0, 0⟩

/-- The `DecryptionContext` struct (lines 64-70). -/
structure DecryptionContext where
  batchId : Nat
  modelVersion : Nat
  stateHash : B32
  processed : Bool
  requester : Addr
deriving DecidableEq

/-- Mapping default for `decryptionContexts`. -/
def DecryptionContext.empty : DecryptionContext := ⟨0, 0, .zero, false, 0⟩

/-- The events of the contract (lines 72-84). -/
inductive Event
  | OwnershipTransferred (previousOwner newOwner : Addr)
  | ProviderAdded (provider : Addr)
  | ProviderRemoved (provider : Addr)
  | PausedEv (account : Addr)
  | UnpausedEv (account : Addr)
  | CooldownUpdated (oldInterval newInterval : Nat)
  | BatchSizeLimitUpdated (oldLimit newLimit : Nat)
  | BatchOpened (batchId modelVersion : Nat)
  | BatchClosedEv (batchId : Nat)
  | CropSubmitted (provider : Addr) (batchId modelVersion : Nat)
  | DecryptionRequested (requestId batchId : Nat) (requester : Addr)
  | DecryptionCompleted (requestId batchId totalScore : Nat)
  | ModelVersionUpdated (oldVersion newVersion : Nat)
deriving DecidableEq

/-- Revert reasons: the custom errors actually raised by the code, the
`require(_, msg)` string reverts, and the two failure modes of the callback's
external steps (`FHE.checkSignatures` and `abi.decode`). -/
inductive Err
  | NotOwner
  | NotProvider
  | PausedErr
  | TooFrequent
  | InvalidState
  | Msg (s : String)
  | BadSignatures
  | DecodeFailure
deriving DecidableEq

/-- Contract storage (lines 42-54) plus `address(this)` as `self`. -/
structure State where
  self : Addr
  owner : Addr
  paused : Bool
  cooldownInterval : Nat
  batchSizeLimit : Nat
  currentModelVersion : Nat
  providers : Addr → Bool
  lastActionAt : Addr → Nat
  batches : Nat → Batch
  decryptionContexts : Nat → DecryptionContext
  batchAccumulators : Nat → Nat → Option Ct
  batchSizes : Nat → Nat → Nat
  batchVersions : Nat → Nat → Nat

/-- Point update of a single-key mapping. -/
def upd {β : Type} (f : Nat → β) (k : Nat) (v : β) : Nat → β :=
  fun x => if x = k then v else f x

/-- Point update of a double-key mapping. -/
def upd2 {β : Type} (f : Nat → Nat → β) (k1 k2 : Nat) (v : β) : Nat → Nat → β :=
  fun x y => if x = k1 ∧ y = k2 then v else f x y

/-- Result of one external call: post-state of the straight-line execution,
revert error (if any), events emitted. -/
structure OpRes where
  st : State
  err : Option Err
  events : List Event

/-- The constructor (lines 86-92), together with the storage-slot initializers
(lines 43-47): returns the deployed state and the emitted events. -/
def deploy (deployer self : Addr) : State × List Event :=
  (⟨self, deployer, false, 10, 5, 1,
    upd (fun _ => false) deployer true,
    fun _ => 0,
    fun _ => Batch.empty,
    fun _ => DecryptionContext.empty,
    fun _ _ => none,
    fun _ _ => 0,
    fun _ _ => 0⟩,
   [.ProviderAdded deployer, .ModelVersionUpdated 0 1])

/-- `transferOwnership` (lines 94-98). -/
def transferOwnership (s : State) (sender newOwner : Addr) : OpRes :=
  if sender ≠ s.owner then ⟨s, some .NotOwner, []⟩
  else ⟨{ s with owner := newOwner }, none, [.OwnershipTransferred s.owner newOwner]⟩

/-- `addProvider` (lines 100-105). -/
def addProvider (s : State) (sender provider : Addr) : OpRes :=
  if sender ≠ s.owner then ⟨s, some .NotOwner, []⟩
  else if s.providers provider then ⟨s, none, []⟩
  else ⟨{ s with providers := upd s.providers provider true }, none, [.ProviderAdded provider]⟩

/-- `removeProvider` (lines 107-112). -/
def removeProvider (s : State) (sender provider : Addr) : OpRes :=
  if sender ≠ s.owner then ⟨s, some .NotOwner, []⟩
  else if s.providers provider then
    ⟨{ s with providers := upd s.providers provider false }, none, [.ProviderRemoved provider]⟩
  else ⟨s, none, []⟩

/-- `setPaused` (lines 114-123). -/
def setPaused (s : State) (sender : Addr) (p : Bool) : OpRes :=
  if sender ≠ s.owner then ⟨s, some .NotOwner, []⟩
  else if p = s.paused then ⟨s, none, []⟩
  else ⟨{ s with paused := p }, none, [if p then .PausedEv sender else .UnpausedEv sender]⟩

/-- `MIN_INTERVAL` (line 44): declared constant, referenced by no function. -/
def MIN_INTERVAL : Nat := 5

/-- `setCooldownInterval` (lines 125-129). -/
def setCooldownInterval (s : State) (sender : Addr) (newInterval : Nat) : OpRes :=
  if sender ≠ s.owner then ⟨s, some .NotOwner, []⟩
  else ⟨{ s with cooldownInterval := newInterval }, none,
        [.CooldownUpdated s.cooldownInterval newInterval]⟩

/-- `setBatchSizeLimit` (lines 131-136). -/
def setBatchSizeLimit (s : State) (sender : Addr) (newLimit : Nat) : OpRes :=
  if sender ≠ s.owner then ⟨s, some .NotOwner, []⟩
  else if newLimit = 0 then ⟨s, some (.Msg "Invalid limit"), []⟩
  else ⟨{ s with batchSizeLimit := newLimit }, none,
        [.BatchSizeLimitUpdated s.batchSizeLimit newLimit]⟩

/-- `incrementModelVersion` (lines 138-142). -/
def incrementModelVersion (s : State) (sender : Addr) : OpRes :=
  if sender ≠ s.owner then ⟨s, some .NotOwner, []⟩
  else ⟨{ s with currentModelVersion := s.currentModelVersion + 1 }, none,
        [.ModelVersionUpdated s.currentModelVersion (s.currentModelVersion + 1)]⟩

/-- `openBatch` (lines 144-156); `now` is `block.timestamp`. -/
def openBatch (s : State) (sender : Addr) (now : Nat) : OpRes :=
  if s.providers sender = false then ⟨s, some .NotProvider, []⟩
  else if s.paused then ⟨s, some .PausedErr, []⟩
  else if now < s.lastActionAt sender + s.cooldownInterval then ⟨s, some .TooFrequent, []⟩
  else
    let batchId := batchIdOf s.self s.currentModelVersion now
    if (s.batches batchId).exists_ then ⟨s, some (.Msg "Batch exists"), []⟩
    else
      ⟨{ s with
          batches := upd s.batches batchId ⟨true, false, now, 0, s.currentModelVersion⟩,
          lastActionAt := upd s.lastActionAt sender now },
        none, [.BatchOpened batchId s.currentModelVersion]⟩

/-- `closeBatch` (lines 158-165). -/
def closeBatch (s : State) (sender : Addr) (now batchId : Nat) : OpRes :=
  if s.providers sender = false then ⟨s, some .NotProvider, []⟩
  else if s.paused then ⟨s, some .PausedErr, []⟩
  else
    let batch := s.batches batchId
    if batch.exists_ = false then ⟨s, some (.Msg "Batch not found"), []⟩
    else if batch.closed then ⟨s, some (.Msg "Batch closed"), []⟩
    else
      ⟨{ s with batches := upd s.batches batchId { batch with closed := true, closedAt := now } },
        none, [.BatchClosedEv batchId]⟩

/-- `submitCrop` (lines 167-193). -/
def submitCrop (s : State) (sender : Addr) (now batchId : Nat)
    (yield_ resistance_ growthRate_ : Ct) : OpRes :=
  if s.providers sender = false then ⟨s, some .NotProvider, []⟩
  else if s.paused then ⟨s, some .PausedErr, []⟩
  else if now < s.lastActionAt sender + s.cooldownInterval then ⟨s, some .TooFrequent, []⟩
  else
    let batch := s.batches batchId
    if batch.exists_ = false then ⟨s, some (.Msg "Batch not found"), []⟩
    else if batch.closed then ⟨s, some (.Msg "Batch closed"), []⟩
    else if batch.modelVersion ≠ s.currentModelVersion then ⟨s, some (.Msg "Stale batch"), []⟩
    else
      let currentSize := s.batchSizes batchId s.currentModelVersion
      if ¬ currentSize < s.batchSizeLimit then ⟨s, some (.Msg "Batch full"), []⟩
      else
        let totalScore := (yield_.add resistance_).add growthRate_
        let acc0 := s.batchAccumulators batchId s.currentModelVersion
        let accInit := match acc0 with
          | none => Ct.lit 0
          | some t => t
        let acc := accInit.add totalScore
        ⟨{ s with
            batchAccumulators := upd2 s.batchAccumulators batchId s.currentModelVersion (some acc),
            batchSizes := upd2 s.batchSizes batchId s.currentModelVersion (currentSize + 1),
            batchVersions :=
              upd2 s.batchVersions batchId s.currentModelVersion s.currentModelVersion,
            lastActionAt := upd s.lastActionAt sender now },
          none, [.CropSubmitted sender batchId s.currentModelVersion]⟩

/-- `requestBatchDecryption` (lines 195-220); `requestId` is the identifier
returned by the external `FHE.requestDecryption` call. -/
def requestBatchDecryption (s : State) (sender : Addr) (now batchId requestId : Nat) : OpRes :=
  if s.paused then ⟨s, some .PausedErr, []⟩
  else if now < s.lastActionAt sender + s.cooldownInterval then ⟨s, some .TooFrequent, []⟩
  else
    let batch := s.batches batchId
    if batch.exists_ = false then ⟨s, some (.Msg "Batch not found"), []⟩
    else if batch.closed = false then ⟨s, some (.Msg "Batch not closed"), []⟩
    else if batch.modelVersion ≠ s.currentModelVersion then ⟨s, some (.Msg "Stale batch"), []⟩
    else
      match s.batchAccumulators batchId s.currentModelVersion with
      | none => ⟨s, some .InvalidState, []⟩
      | some acc =>
        let stateHash := hashCiphertexts [acc] s.self
        ⟨{ s with
            decryptionContexts := upd s.decryptionContexts requestId
              ⟨batchId, s.currentModelVersion, stateHash, false, sender⟩,
            lastActionAt := upd s.lastActionAt sender now },
          none, [.DecryptionRequested requestId batchId sender]⟩

/-- `onBatchDecrypted` (lines 222-250); `cleartexts` is the 256-bit word carried
by the oracle payload (`abi.decode` to `uint32` succeeds iff it fits in 32 bits)
and `sigOk` is the outcome of the external `FHE.checkSignatures` call. -/
def onBatchDecrypted (s : State) (requestId cleartexts : Nat) (sigOk : Bool) : OpRes :=
  let ctx := s.decryptionContexts requestId
  if ctx.processed then ⟨s, some (.Msg "Request processed"), []⟩
  else if ctx.requester = 0 then ⟨s, some (.Msg "Invalid context"), []⟩
  else
    let batch := s.batches ctx.batchId
    if batch.exists_ = false then ⟨s, some (.Msg "Batch not found"), []⟩
    else if batch.closed = false then ⟨s, some (.Msg "Batch not closed"), []⟩
    else if batch.modelVersion ≠ ctx.modelVersion then ⟨s, some (.Msg "Version mismatch"), []⟩
    else
      match s.batchAccumulators ctx.batchId ctx.modelVersion with
      | none => ⟨s, some .InvalidState, []⟩
      | some acc =>
        let currentStateHash := hashCiphertexts [acc] s.self
        if currentStateHash ≠ ctx.stateHash then ⟨s, some (.Msg "State hash mismatch"), []⟩
        else if sigOk = false then ⟨s, some .BadSignatures, []⟩
        else if ¬ cleartexts < M32 then ⟨s, some .DecodeFailure, []⟩
        else
          ⟨{ s with
              decryptionContexts :=
                upd s.decryptionContexts requestId { ctx with processed := true } },
            none, [.DecryptionCompleted requestId ctx.batchId cleartexts]⟩

/-- One external call to the contract: entry point plus its arguments and the
environment inputs (`msg.sender`, `block.timestamp`, oracle data). -/
inductive Op
  | transferOwnership (sender newOwner : Addr)
  | addProvider (sender provider : Addr)
  | removeProvider (sender provider : Addr)
  | setPaused (sender : Addr) (p : Bool)
  | setCooldownInterval (sender : Addr) (v : Nat)
  | setBatchSizeLimit (sender : Addr) (v : Nat)
  | incrementModelVersion (sender : Addr)
  | openBatch (sender : Addr) (now : Nat)
  | closeBatch (sender : Addr) (now batchId : Nat)
  | submitCrop (sender : Addr) (now batchId : Nat) (yield_ resistance_ growthRate_ : Ct)
  | requestBatchDecryption (sender : Addr) (now batchId requestId : Nat)
  | onBatchDecrypted (requestId cleartexts : Nat) (sigOk : Bool)

/-- Dispatch of one external call. -/
def applyOp (s : State) : Op → OpRes
  | .transferOwnership sender newOwner => transferOwnership s sender newOwner
  | .addProvider sender provider => addProvider s sender provider
  | .removeProvider sender provider => removeProvider s sender provider
  | .setPaused sender p => setPaused s sender p
  | .setCooldownInterval sender v => setCooldownInterval s sender v
  | .setBatchSizeLimit sender v => setBatchSizeLimit s sender v
  | .incrementModelVersion sender => incrementModelVersion s sender
  | .openBatch sender now => openBatch s sender now
  | .closeBatch sender now batchId => closeBatch s sender now batchId
  | .submitCrop sender now batchId y r g => submitCrop s sender now batchId y r g
  | .requestBatchDecryption sender now batchId requestId =>
      requestBatchDecryption s sender now batchId requestId
  | .onBatchDecrypted requestId cleartexts sigOk => onBatchDecrypted s requestId cleartexts sigOk

/-- EVM commit semantics: a reverted call leaves storage untouched. -/
def commit (s : State) (r : OpRes) : State :=
  match r.err with
  | none => r.st
  | some _ => s

/-- The state after a sequence of external calls. -/
def chain (s : State) (ops : List Op) : State :=
  ops.foldl (fun t o => commit t (applyOp t o)) s

/-- States reachable from a deployment by external calls. -/
inductive Reachable : State → Prop
  | init (deployer self : Addr) : Reachable (deploy deployer self).1
  | step {s : State} (o : Op) : Reachable s → Reachable (commit s (applyOp s o))

/-- The deployment used by the concrete scenarios: deployer address 1,
contract address 50. -/
def s₀ : State := (deploy 1 50).1

/-- The batch id produced by `openBatch` at model version 1, timestamp 100. -/
def bid₀ : Nat := batchIdOf 50 1 100

/-- Scenario state for C1: open a batch at version 1, submit once, close it,
then the admin increments the model version to 2. -/
def c1State : State := chain s₀
  [.openBatch 1 100,
   .submitCrop 1 111 bid₀ (.lit 3) (.lit 4) (.lit 5),
   .closeBatch 1 120 bid₀,
   .incrementModelVersion 1]

/-- A reachable state with one open batch (id `bid₀`) at version 1. -/
def c1OpenState : State := chain s₀ [.openBatch 1 100]

/-- Scenario state for C2: open, submit, close, request decryption under
request id 7, then the admin pauses the system. -/
def c2State : State := chain s₀
  [.openBatch 1 100,
   .submitCrop 1 111 bid₀ (.lit 3) (.lit 4) (.lit 5),
   .closeBatch 1 120 bid₀,
   .requestBatchDecryption 1 130 bid₀ 7,
   .setPaused 1 true]

/-- A reachable paused state, used by the C2 witness. -/
def pausedState : State := chain s₀ [.setPaused 1 true]

/-- A reachable state with a pending decryption request under request id 7. -/
def requestedState : State := chain s₀
  [.openBatch 1 100,
   .submitCrop 1 111 bid₀ (.lit 3) (.lit 4) (.lit 5),
   .closeBatch 1 120 bid₀,
   .requestBatchDecryption 1 130 bid₀ 7]

/-- A reachable state whose batch `bid₀` is closed with one accepted
submission and no pending request. -/
def closedState : State := chain s₀
  [.openBatch 1 100,
   .submitCrop 1 111 bid₀ (.lit 3) (.lit 4) (.lit 5),
   .closeBatch 1 120 bid₀]

/-- Scenario state for C5: three accepted submissions under the default
capacity limit 5, then the admin lowers the limit to 2. -/
def c5State : State := chain s₀
  [.openBatch 1 100,
   .submitCrop 1 111 bid₀ (.lit 3) (.lit 4) (.lit 5),
   .submitCrop 1 122 bid₀ (.lit 1) (.lit 1) (.lit 1),
   .submitCrop 1 133 bid₀ (.lit 2) (.lit 2) (.lit 2),
   .setBatchSizeLimit 1 2]

/-- Scenario state for the C5 witness: capacity 1 and one accepted submission,
so the batch is full. -/
def c5FullState : State := chain s₀
  [.setBatchSizeLimit 1 1,
   .openBatch 1 100,
   .submitCrop 1 111 bid₀ (.lit 1) (.lit 1) (.lit 1)]

/-- One `submitCrop` call's submitter-chosen inputs: caller, timestamp and the
three encrypted fields. -/
structure Sub where
  sender : Addr
  now : Nat
  yield_ : Ct
  resistance_ : Ct
  growthRate_ : Ct
deriving DecidableEq

/-- The single contribution a `submitCrop` call folds its three encrypted
fields into (line 181). -/
def subTotal (c : Sub) : Ct := (c.yield_.add c.resistance_).add c.growthRate_

/-- Plaintext sum of a list of contributions. -/
def contribSum (l : List Sub) : Nat := (l.map fun c => (subTotal c).eval).sum

/-- Runs a sequence of `submitCrop` calls into batch `bid`; `some` exactly when
every call in the sequence is accepted. -/
def runSubmits (bid : Nat) : State → List Sub → Option State
  | s, [] => some s
  | s, c :: rest =>
    match (submitCrop s c.sender c.now bid c.yield_ c.resistance_ c.growthRate_).err with
    | none => runSubmits bid (submitCrop s c.sender c.now bid c.yield_ c.resistance_
        c.growthRate_).st rest
    | some _ => none

/-- Base state for the C4 witness: provider 2 added, batch opened by provider 1. -/
def c4Base : State := chain s₀ [.addProvider 1 2, .openBatch 1 100]

/-- Two accepted contributions, by distinct providers. -/
def c4L : List Sub := [⟨1, 111, .lit 3, .lit 4, .lit 5⟩, ⟨2, 111, .lit 1, .lit 2, .lit 3⟩]

/-- The same two contributions in the opposite order. -/
def c4L2 : List Sub := [⟨2, 111, .lit 1, .lit 2, .lit 3⟩, ⟨1, 111, .lit 3, .lit 4, .lit 5⟩]

/-- Final state of the run accepting `c4L`. -/
def c4s1 : State := (runSubmits bid₀ c4Base c4L).getD c4Base

/-- Final state of the run accepting `c4L2`. -/
def c4s2 : State := (runSubmits bid₀ c4Base c4L2).getD c4Base

/-- The accumulator handle bound by request 7 in `requestedState`. -/
def c7t : Ct :=
  (requestedState.batchAccumulators (requestedState.decryptionContexts 7).batchId
    (requestedState.decryptionContexts 7).modelVersion).getD (.lit 0)

theorem reachable_chain (ops : List Op) (s : State) (h : Reachable s) :
    Reachable (chain s ops) := by
  induction ops generalizing s with
  | nil => exact h
  | cons o rest ih => exact ih _ (Reachable.step o h)

theorem eval_lt (t : Ct) : t.eval < M32 := by
  cases t <;> simp [Ct.eval] <;> exact Nat.mod_lt _ (by norm_num [M32])

theorem evalOpt_lt (o : Option Ct) : evalOpt o < M32 := by
  cases o with
  | none => norm_num [evalOpt, M32]
  | some t => exact eval_lt t

theorem applyOp_noop (s : State) (o : Op) :
    (applyOp s o).err = none ∨ ((applyOp s o).st = s ∧ (applyOp s o).events = []) := by
  cases o <;>
    simp only [applyOp, transferOwnership, addProvider, removeProvider, setPaused,
      setCooldownInterval, setBatchSizeLimit, incrementModelVersion, openBatch,
      closeBatch, submitCrop, requestBatchDecryption, onBatchDecrypted] <;>
    (repeat' split) <;> simp

theorem onBatchDecrypted_ok (s : State) (rid c : Nat) (ok : Bool)
    (h : (onBatchDecrypted s rid c ok).err = none) :
    ((onBatchDecrypted s rid c ok).st.decryptionContexts rid).processed = true ∧
    (onBatchDecrypted s rid c ok).events =
      [.DecryptionCompleted rid (s.decryptionContexts rid).batchId c] := by
  simp only [onBatchDecrypted] at h ⊢
  repeat' split at h
  all_goals simp_all [upd]

theorem onBatchDecrypted_processed (s : State) (rid c : Nat) (ok : Bool)
    (h : (s.decryptionContexts rid).processed = true) :
    onBatchDecrypted s rid c ok = ⟨s, some (.Msg "Request processed"), []⟩ := by
  simp [onBatchDecrypted, h]

theorem batch_flags_step (s : State) (o : Op) (b : Nat)
    (hex : (s.batches b).exists_ = true) (hcl : (s.batches b).closed = true) :
    ((commit s (applyOp s o)).batches b).exists_ = true ∧
    ((commit s (applyOp s o)).batches b).closed = true := by
  cases o <;>
    simp only [applyOp, transferOwnership, addProvider, removeProvider, setPaused,
      setCooldownInterval, setBatchSizeLimit, incrementModelVersion, openBatch,
      closeBatch, submitCrop, requestBatchDecryption, onBatchDecrypted] <;>
    (repeat' split) <;>
    simp_all [commit, upd] <;>
    (repeat' split) <;>
    simp_all

theorem submitCrop_ok_acc (s : State) (sender : Addr) (now bid : Nat) (y r g : Ct)
    (h : (submitCrop s sender now bid y r g).err = none) :
    (submitCrop s sender now bid y r g).st.currentModelVersion = s.currentModelVersion ∧
    evalOpt ((submitCrop s sender now bid y r g).st.batchAccumulators bid
        s.currentModelVersion) =
      (evalOpt (s.batchAccumulators bid s.currentModelVersion) + ((y.add r).add g).eval)
        % M32 := by
  simp only [submitCrop] at h ⊢
  repeat' split at h
  all_goals simp_all [upd2]
  all_goals rw [if_neg (Nat.not_lt.mpr (by assumption))]
  all_goals simp_all [upd2, evalOpt, Ct.eval]

theorem runSubmits_spec (bid : Nat) (l : List Sub) :
    ∀ (s s' : State), runSubmits bid s l = some s' →
      s'.currentModelVersion = s.currentModelVersion ∧
      evalOpt (s'.batchAccumulators bid s.currentModelVersion) =
        (evalOpt (s.batchAccumulators bid s.currentModelVersion) + contribSum l) % M32 := by
  induction l with
  | nil =>
    intro s s' h
    simp only [runSubmits, Option.some.injEq] at h
    subst h
    refine ⟨rfl, ?_⟩
    simp [contribSum]
    exact (Nat.mod_eq_of_lt (evalOpt_lt _)).symm
  | cons c rest ih =>
    intro s s' h
    simp only [runSubmits] at h
    split at h
    case h_2 => exact absurd h (by simp)
    case h_1 herr =>
      obtain ⟨hver, hacc⟩ := submitCrop_ok_acc s c.sender c.now bid c.yield_ c.resistance_
        c.growthRate_ herr
      obtain ⟨ihver, ihacc⟩ := ih _ _ h
      rw [hver] at ihver ihacc
      refine ⟨ihver, ?_⟩
      rw [ihacc, hacc, Nat.mod_add_mod]
      have hsum : contribSum (c :: rest) = (subTotal c).eval + contribSum rest := by
        simp [contribSum]
      rw [hsum, subTotal, Nat.add_assoc]

/-- Claim C1, counterexample: in the reachable state `c1State` the batch
`bid₀` exists, is closed, and has an initialized accumulator under its stamped
version, yet after the version bump `requestBatchDecryption` reverts with
"Stale batch" — so a version bump does make decryption requests fail. -/
theorem claim_C1_cex :
    Reachable c1State ∧
    (c1State.batches bid₀).exists_ = true ∧
    (c1State.batches bid₀).closed = true ∧
    (c1State.batchAccumulators bid₀ (c1State.batches bid₀).modelVersion).isSome = true ∧
    (requestBatchDecryption c1State 1 130 bid₀ 7).err = some (.Msg "Stale batch") :=
  ⟨reachable_chain _ _ (Reachable.init 1 50), by decide, by decide, by decide, by decide⟩

/-- Claim C1, amended: after the admin increments the global model version,
`requestBatchDecryption` against a closed batch stamped with the prior version
reverts with "Stale batch" (its version check compares against the current
global version) leaving state unchanged; only `closeBatch` remains possible
for such a frozen batch. -/
theorem claim_C1_amended :
    (∀ (s : State) (sender : Addr) (now bid rid : Nat),
      (s.batches bid).exists_ = true →
      (s.batches bid).closed = true →
      (s.batches bid).modelVersion ≠ s.currentModelVersion →
      s.paused = false →
      ¬ now < s.lastActionAt sender + s.cooldownInterval →
      (requestBatchDecryption s sender now bid rid).err = some (.Msg "Stale batch") ∧
      (requestBatchDecryption s sender now bid rid).st = s ∧
      (requestBatchDecryption s sender now bid rid).events = []) ∧
    (∀ (s : State) (sender : Addr) (now bid : Nat),
      s.providers sender = true →
      s.paused = false →
      (s.batches bid).exists_ = true →
      (s.batches bid).closed = false →
      (closeBatch s sender now bid).err = none ∧
      ((closeBatch s sender now bid).st.batches bid).closed = true) := by
  constructor
  · intro s sender now bid rid hex hcl hver hp hcool
    refine ⟨?_, ?_, ?_⟩ <;> simp [requestBatchDecryption, hex, hcl, hver, hp, hcool]
  · intro s sender now bid hprov hp hex hcl
    refine ⟨?_, ?_⟩ <;> simp [closeBatch, hprov, hp, hex, hcl, upd]

/-- Witness for the amended C1 at concrete reachable states. -/
theorem claim_C1_witness :
    ((requestBatchDecryption c1State 1 130 bid₀ 7).err = some (.Msg "Stale batch") ∧
     (requestBatchDecryption c1State 1 130 bid₀ 7).st = c1State ∧
     (requestBatchDecryption c1State 1 130 bid₀ 7).events = []) ∧
    ((closeBatch c1OpenState 1 120 bid₀).err = none ∧
     ((closeBatch c1OpenState 1 120 bid₀).st.batches bid₀).closed = true) :=
  ⟨claim_C1_amended.1 c1State 1 130 bid₀ 7 (by decide) (by decide) (by decide) (by decide)
      (by decide),
   claim_C1_amended.2 c1OpenState 1 120 bid₀ (by decide) (by decide) (by decide) (by decide)⟩

/-- Claim C2, counterexample: `c2State` is a reachable paused state in which
the oracle callback `onBatchDecrypted` — a non-admin entry point that writes
state — succeeds and marks context 7 processed, because the function carries
no pause check. -/
theorem claim_C2_cex :
    Reachable c2State ∧
    c2State.paused = true ∧
    (onBatchDecrypted c2State 7 12 true).err = none ∧
    ((onBatchDecrypted c2State 7 12 true).st.decryptionContexts 7).processed = true :=
  ⟨reachable_chain _ _ (Reachable.init 1 50), by decide, by decide, by decide⟩

/-- Claim C2, amended: while paused, `openBatch`, `closeBatch` and `submitCrop`
by an authorized provider and `requestBatchDecryption` by anyone revert with the
pause error and change no state; the oracle callback `onBatchDecrypted` is not
pause-gated and can succeed while the system is paused. -/
theorem claim_C2_amended (s : State) (hp : s.paused = true) (sender : Addr)
    (now bid rid : Nat) (y r g : Ct) :
    (s.providers sender = true →
      (openBatch s sender now).err = some .PausedErr ∧
      (openBatch s sender now).st = s ∧ (openBatch s sender now).events = [] ∧
      (closeBatch s sender now bid).err = some .PausedErr ∧
      (closeBatch s sender now bid).st = s ∧ (closeBatch s sender now bid).events = [] ∧
      (submitCrop s sender now bid y r g).err = some .PausedErr ∧
      (submitCrop s sender now bid y r g).st = s ∧
      (submitCrop s sender now bid y r g).events = []) ∧
    (requestBatchDecryption s sender now bid rid).err = some .PausedErr ∧
    (requestBatchDecryption s sender now bid rid).st = s ∧
    (requestBatchDecryption s sender now bid rid).events = [] := by
  constructor
  · intro hprov
    refine ⟨?_, ?_, ?_, ?_, ?_, ?_, ?_, ?_, ?_⟩ <;>
      simp [openBatch, closeBatch, submitCrop, hprov, hp]
  · refine ⟨?_, ?_, ?_⟩ <;> simp [requestBatchDecryption, hp]

/-- Witness for the amended C2 at a concrete reachable paused state. -/
theorem claim_C2_witness :
    ((pausedState.providers 1 = true →
      (openBatch pausedState 1 100).err = some .PausedErr ∧
      (openBatch pausedState 1 100).st = pausedState ∧
      (openBatch pausedState 1 100).events = [] ∧
      (closeBatch pausedState 1 100 bid₀).err = some .PausedErr ∧
      (closeBatch pausedState 1 100 bid₀).st = pausedState ∧
      (closeBatch pausedState 1 100 bid₀).events = [] ∧
      (submitCrop pausedState 1 100 bid₀ (.lit 1) (.lit 2) (.lit 3)).err = some .PausedErr ∧
      (submitCrop pausedState 1 100 bid₀ (.lit 1) (.lit 2) (.lit 3)).st = pausedState ∧
      (submitCrop pausedState 1 100 bid₀ (.lit 1) (.lit 2) (.lit 3)).events = []) ∧
     (requestBatchDecryption pausedState 1 100 bid₀ 7).err = some .PausedErr ∧
     (requestBatchDecryption pausedState 1 100 bid₀ 7).st = pausedState ∧
     (requestBatchDecryption pausedState 1 100 bid₀ 7).events = []) :=
  claim_C2_amended pausedState (by decide) 1 100 bid₀ 7 (.lit 1) (.lit 2) (.lit 3)

/-- Claim C3: a successful `onBatchDecrypted` for a request id emits
DecryptionCompleted exactly once, and an immediately following callback with
the same request id reverts with "Request processed", changing no state and
emitting nothing — the callback succeeds at most once per request id. -/
theorem claim_C3 (s : State) (rid c : Nat) (ok : Bool) (c2 : Nat) (ok2 : Bool)
    (h : (onBatchDecrypted s rid c ok).err = none) :
    (onBatchDecrypted s rid c ok).events =
      [.DecryptionCompleted rid (s.decryptionContexts rid).batchId c] ∧
    (onBatchDecrypted (onBatchDecrypted s rid c ok).st rid c2 ok2).err =
      some (.Msg "Request processed") ∧
    (onBatchDecrypted (onBatchDecrypted s rid c ok).st rid c2 ok2).st =
      (onBatchDecrypted s rid c ok).st ∧
    (onBatchDecrypted (onBatchDecrypted s rid c ok).st rid c2 ok2).events = [] := by
  obtain ⟨hproc, hev⟩ := onBatchDecrypted_ok s rid c ok h
  have h2 := onBatchDecrypted_processed ((onBatchDecrypted s rid c ok).st) rid c2 ok2 hproc
  refine ⟨hev, ?_, ?_, ?_⟩ <;> rw [h2]

/-- Witness for C3 at the reachable state with pending request 7. -/
theorem claim_C3_witness :
    (onBatchDecrypted requestedState 7 12 true).events =
      [.DecryptionCompleted 7 (requestedState.decryptionContexts 7).batchId 12] ∧
    (onBatchDecrypted (onBatchDecrypted requestedState 7 12 true).st 7 99 false).err =
      some (.Msg "Request processed") ∧
    (onBatchDecrypted (onBatchDecrypted requestedState 7 12 true).st 7 99 false).st =
      (onBatchDecrypted requestedState 7 12 true).st ∧
    (onBatchDecrypted (onBatchDecrypted requestedState 7 12 true).st 7 99 false).events =
      [] :=
  claim_C3 requestedState 7 12 true 99 false (by decide)

/-- Claim C4: when a sequence of `submitCrop` calls into the same batch is
accepted in full, the final accumulator's plaintext is the sum (mod 2^32) of
the initial slot and every accepted contribution (each contribution being the
sum of its three submitted encrypted fields), and any permutation of the
sequence that is also accepted yields the same accumulator plaintext. -/
theorem claim_C4 (s : State) (bid : Nat) (l l2 : List Sub) (s1 s2 : State)
    (h1 : runSubmits bid s l = some s1) :
    evalOpt (s1.batchAccumulators bid s.currentModelVersion) =
      (evalOpt (s.batchAccumulators bid s.currentModelVersion) + contribSum l) % M32 ∧
    (List.Perm l l2 → runSubmits bid s l2 = some s2 →
      evalOpt (s2.batchAccumulators bid s.currentModelVersion) =
        evalOpt (s1.batchAccumulators bid s.currentModelVersion)) := by
  obtain ⟨_, hacc1⟩ := runSubmits_spec bid l s s1 h1
  refine ⟨hacc1, fun hperm h2 => ?_⟩
  obtain ⟨_, hacc2⟩ := runSubmits_spec bid l2 s s2 h2
  rw [hacc1, hacc2]
  have hs : contribSum l = contribSum l2 := by
    unfold contribSum
    exact (hperm.map _).sum_eq
  rw [hs]

/-- Witness for C4: two accepted contributions by distinct providers, run in
both orders from the same reachable state. -/
theorem claim_C4_witness :
    evalOpt (c4s1.batchAccumulators bid₀ c4Base.currentModelVersion) =
      (evalOpt (c4Base.batchAccumulators bid₀ c4Base.currentModelVersion) + contribSum c4L)
        % M32 ∧
    evalOpt (c4s2.batchAccumulators bid₀ c4Base.currentModelVersion) =
      evalOpt (c4s1.batchAccumulators bid₀ c4Base.currentModelVersion) :=
  ⟨(claim_C4 c4Base bid₀ c4L c4L2 c4s1 c4s2 rfl).1,
   (claim_C4 c4Base bid₀ c4L c4L2 c4s1 c4s2 rfl).2 (by decide) rfl⟩

/-- Claim C5, counterexample: `c5State` is reachable (three accepted
submissions, then the admin lowers the capacity limit to 2), and in it the
stored submission count (3) exceeds the configured capacity limit (2). -/
theorem claim_C5_cex :
    Reachable c5State ∧
    c5State.batchSizeLimit < c5State.batchSizes bid₀ 1 :=
  ⟨reachable_chain _ _ (Reachable.init 1 50), by decide⟩

/-- Claim C5, amended: an otherwise-valid `submitCrop` made when the count has
reached the current limit reverts with "Batch full" leaving state (count and
accumulator included) unchanged, and an accepted `submitCrop` requires
count < limit and sets count+1 — so submissions alone never push a count past
the limit; a stored count can exceed the limit only because
`setBatchSizeLimit` may lower the limit below an existing count. -/
theorem claim_C5_amended :
    (∀ (s : State) (sender : Addr) (now bid : Nat) (y r g : Ct),
      s.providers sender = true → s.paused = false →
      ¬ now < s.lastActionAt sender + s.cooldownInterval →
      (s.batches bid).exists_ = true → (s.batches bid).closed = false →
      (s.batches bid).modelVersion = s.currentModelVersion →
      s.batchSizeLimit ≤ s.batchSizes bid s.currentModelVersion →
      (submitCrop s sender now bid y r g).err = some (.Msg "Batch full") ∧
      (submitCrop s sender now bid y r g).st = s ∧
      (submitCrop s sender now bid y r g).events = []) ∧
    (∀ (s : State) (sender : Addr) (now bid : Nat) (y r g : Ct),
      (submitCrop s sender now bid y r g).err = none →
      s.batchSizes bid s.currentModelVersion < s.batchSizeLimit ∧
      (submitCrop s sender now bid y r g).st.batchSizes bid s.currentModelVersion =
        s.batchSizes bid s.currentModelVersion + 1) := by
  constructor
  · intro s sender now bid y r g hprov hp hcool hex hcl hver hsz
    refine ⟨?_, ?_, ?_⟩ <;>
      simp [submitCrop, hprov, hp, hcool, hex, hcl, hver, Nat.not_lt.mpr hsz]
  · intro s sender now bid y r g h
    simp only [submitCrop] at h ⊢
    repeat' split at h
    all_goals simp_all [upd2]
    all_goals rw [if_neg (Nat.not_lt.mpr (by assumption))]
    all_goals simp [upd2]

/-- Witness for the amended C5: a full batch (capacity 1) rejects a second
submission; a fresh batch accepts one and increments its count. -/
theorem claim_C5_witness :
    ((submitCrop c5FullState 1 122 bid₀ (.lit 1) (.lit 2) (.lit 3)).err =
        some (.Msg "Batch full") ∧
      (submitCrop c5FullState 1 122 bid₀ (.lit 1) (.lit 2) (.lit 3)).st = c5FullState ∧
      (submitCrop c5FullState 1 122 bid₀ (.lit 1) (.lit 2) (.lit 3)).events = []) ∧
    (c1OpenState.batchSizes bid₀ c1OpenState.currentModelVersion <
        c1OpenState.batchSizeLimit ∧
      (submitCrop c1OpenState 1 111 bid₀ (.lit 3) (.lit 4) (.lit 5)).st.batchSizes bid₀
          c1OpenState.currentModelVersion =
        c1OpenState.batchSizes bid₀ c1OpenState.currentModelVersion + 1) :=
  ⟨claim_C5_amended.1 c5FullState 1 122 bid₀ (.lit 1) (.lit 2) (.lit 3)
     (by decide) (by decide) (by decide) (by decide) (by decide) (by decide) (by decide),
   claim_C5_amended.2 c1OpenState 1 111 bid₀ (.lit 3) (.lit 4) (.lit 5) (by decide)⟩

/-- Claim C6: a successful `closeBatch` leaves the batch existing and closed;
an existing closed batch stays existing and closed across any sequence of
external calls (closing is one-way); and an otherwise-valid `submitCrop`
against a closed batch reverts with "Batch closed", with no state change and
no version hypothesis — the closed check precedes the version check. -/
theorem claim_C6 :
    (∀ (s : State) (sender : Addr) (now bid : Nat),
      (closeBatch s sender now bid).err = none →
      ((closeBatch s sender now bid).st.batches bid).exists_ = true ∧
      ((closeBatch s sender now bid).st.batches bid).closed = true) ∧
    (∀ (s : State) (b : Nat) (ops : List Op),
      (s.batches b).exists_ = true → (s.batches b).closed = true →
      ((chain s ops).batches b).exists_ = true ∧ ((chain s ops).batches b).closed = true) ∧
    (∀ (s : State) (sender : Addr) (now bid : Nat) (y r g : Ct),
      s.providers sender = true → s.paused = false →
      ¬ now < s.lastActionAt sender + s.cooldownInterval →
      (s.batches bid).exists_ = true → (s.batches bid).closed = true →
      (submitCrop s sender now bid y r g).err = some (.Msg "Batch closed") ∧
      (submitCrop s sender now bid y r g).st = s ∧
      (submitCrop s sender now bid y r g).events = []) := by
  refine ⟨?_, ?_, ?_⟩
  · intro s sender now bid h
    simp only [closeBatch] at h ⊢
    repeat' split at h
    all_goals simp_all [upd]
  · intro s b ops
    induction ops generalizing s with
    | nil => exact fun hex hcl => ⟨hex, hcl⟩
    | cons o rest ih =>
      intro hex hcl
      obtain ⟨hex1, hcl1⟩ := batch_flags_step s o b hex hcl
      exact ih _ hex1 hcl1
  · intro s sender now bid y r g hprov hp hcool hex hcl
    refine ⟨?_, ?_, ?_⟩ <;> simp [submitCrop, hprov, hp, hcool, hex, hcl]

/-- Witness for C6: closing `bid₀` succeeds; the closed batch survives a
version bump and a later `openBatch`; a stale-version submission still fails
with "Batch closed". -/
theorem claim_C6_witness :
    ((closeBatch c1OpenState 1 120 bid₀).err = none →
      ((closeBatch c1OpenState 1 120 bid₀).st.batches bid₀).exists_ = true ∧
      ((closeBatch c1OpenState 1 120 bid₀).st.batches bid₀).closed = true) ∧
    (((chain c1State [.incrementModelVersion 1, .openBatch 1 200]).batches bid₀).exists_ =
        true ∧
      ((chain c1State [.incrementModelVersion 1, .openBatch 1 200]).batches bid₀).closed =
        true) ∧
    ((submitCrop c1State 1 140 bid₀ (.lit 1) (.lit 2) (.lit 3)).err =
        some (.Msg "Batch closed") ∧
      (submitCrop c1State 1 140 bid₀ (.lit 1) (.lit 2) (.lit 3)).st = c1State ∧
      (submitCrop c1State 1 140 bid₀ (.lit 1) (.lit 2) (.lit 3)).events = []) :=
  ⟨fun h => claim_C6.1 c1OpenState 1 120 bid₀ h,
   claim_C6.2.1 c1State bid₀ [.incrementModelVersion 1, .openBatch 1 200]
     (by decide) (by decide),
   claim_C6.2.2 c1State 1 140 bid₀ (.lit 1) (.lit 2) (.lit 3)
     (by decide) (by decide) (by decide) (by decide) (by decide)⟩

/-- Claim C7: a successful `requestBatchDecryption` requires an initialized
accumulator and stores as binding hash the hash of that accumulator's handle
together with the contract's own address; at callback time the same hash is
recomputed from the current accumulator handle, and under otherwise-valid
conditions the hash check passes exactly when the handle equals the one whose
hash was stored — on a mismatch the callback reverts with
"State hash mismatch" changing no state and emitting nothing. -/
theorem claim_C7 :
    (∀ (s : State) (sender : Addr) (now bid rid : Nat),
      (requestBatchDecryption s sender now bid rid).err = none →
      (s.batchAccumulators bid s.currentModelVersion).isSome = true ∧
      ((requestBatchDecryption s sender now bid rid).st.decryptionContexts rid).stateHash =
        hashCiphertexts [(s.batchAccumulators bid s.currentModelVersion).getD (.lit 0)]
          s.self) ∧
    (∀ (s : State) (rid c : Nat) (ok : Bool) (tNow tReq : Ct),
      (s.decryptionContexts rid).processed = false →
      (s.decryptionContexts rid).requester ≠ 0 →
      (s.batches (s.decryptionContexts rid).batchId).exists_ = true →
      (s.batches (s.decryptionContexts rid).batchId).closed = true →
      (s.batches (s.decryptionContexts rid).batchId).modelVersion =
        (s.decryptionContexts rid).modelVersion →
      s.batchAccumulators (s.decryptionContexts rid).batchId
          (s.decryptionContexts rid).modelVersion = some tNow →
      (s.decryptionContexts rid).stateHash = hashCiphertexts [tReq] s.self →
      ((onBatchDecrypted s rid c ok).err = some (.Msg "State hash mismatch") ↔ tNow ≠ tReq) ∧
      (tNow ≠ tReq →
        (onBatchDecrypted s rid c ok).st = s ∧ (onBatchDecrypted s rid c ok).events = [])) := by
  constructor
  · intro s sender now bid rid h
    simp only [requestBatchDecryption] at h ⊢
    rcases hacc : s.batchAccumulators bid s.currentModelVersion with _ | acc <;>
      split_ifs at h ⊢ <;>
      simp_all [upd]
  · intro s rid c ok tNow tReq hproc hreq hex hcl hver hacc hhash
    by_cases hne : tNow = tReq
    · subst hne
      simp only [onBatchDecrypted]
      rw [hacc]
      simp [hproc, hreq, hex, hcl, hver, hhash, hashCiphertexts]
      split_ifs <;> simp
    · refine ⟨?_, fun _ => ⟨?_, ?_⟩⟩ <;>
        (simp only [onBatchDecrypted]
         rw [hacc]
         simp [hproc, hreq, hex, hcl, hver, hhash, hashCiphertexts, hne])

/-- Witness for C7: the stored hash of request 7 is the hash of the current
accumulator handle and the contract address; at callback time with the handle
unchanged the mismatch error cannot occur. -/
theorem claim_C7_witness :
    ((closedState.batchAccumulators bid₀ closedState.currentModelVersion).isSome = true ∧
      ((requestBatchDecryption closedState 1 130 bid₀ 7).st.decryptionContexts 7).stateHash =
        hashCiphertexts
          [(closedState.batchAccumulators bid₀ closedState.currentModelVersion).getD (.lit 0)]
          closedState.self) ∧
    ((onBatchDecrypted requestedState 7 12 true).err = some (.Msg "State hash mismatch") ↔
        c7t ≠ c7t) ∧
    (c7t ≠ c7t →
      (onBatchDecrypted requestedState 7 12 true).st = requestedState ∧
      (onBatchDecrypted requestedState 7 12 true).events = []) :=
  ⟨claim_C7.1 closedState 1 130 bid₀ 7 (by decide),
   claim_C7.2 requestedState 7 12 true c7t c7t (by decide) (by decide) (by decide)
     (by decide) (by decide) rfl (by decide)⟩

/-- Claim C8: every entry point validates before writing — whenever a call
reverts, the state it leaves behind is exactly the pre-state and no event was
emitted, for every operation and every argument. -/
theorem claim_C8 (s : State) (o : Op) (h : (applyOp s o).err.isSome = true) :
    (applyOp s o).st = s ∧ (applyOp s o).events = [] := by
  rcases applyOp_noop s o with h0 | h0
  · rw [h0] at h
    simp at h
  · exact h0

/-- Witness for C8: a `closeBatch` by a non-provider reverts and leaves the
deployed state untouched. -/
theorem claim_C8_witness :
    (applyOp s₀ (.closeBatch 2 0 bid₀)).st = s₀ ∧
    (applyOp s₀ (.closeBatch 2 0 bid₀)).events = [] :=
  claim_C8 s₀ (.closeBatch 2 0 bid₀) (by decide)

/-- Claim C9: deployment makes the deployer the owner, places the deployer in
the provider set, starts the global model version at 1, and emits
ProviderAdded followed by ModelVersionUpdated(0, 1). -/
theorem claim_C9 (deployer self : Addr) :
    (deploy deployer self).1.owner = deployer ∧
    (deploy deployer self).1.providers deployer = true ∧
    (deploy deployer self).1.currentModelVersion = 1 ∧
    (deploy deployer self).2 =
      [Event.ProviderAdded deployer, Event.ModelVersionUpdated 0 1] := by
  refine ⟨rfl, ?_, rfl, rfl⟩
  simp [deploy, upd]

/-- Claim C10: for every new interval value — 0 and values below MIN_INTERVAL
(which equals 5) included — the owner's `setCooldownInterval` succeeds and sets
the cooldown to exactly that value; no lower bound is enforced. -/
theorem claim_C10 (s : State) (sender : Addr) (newInterval : Nat)
    (h : sender = s.owner) :
    MIN_INTERVAL = 5 ∧
    (setCooldownInterval s sender newInterval).err = none ∧
    (setCooldownInterval s sender newInterval).st.cooldownInterval = newInterval ∧
    (setCooldownInterval s sender newInterval).events =
      [Event.CooldownUpdated s.cooldownInterval newInterval] := by
  subst h
  refine ⟨rfl, ?_, ?_, ?_⟩ <;> simp [setCooldownInterval]

/-- Witness for C10: setting the cooldown to 0 (below MIN_INTERVAL) succeeds. -/
theorem claim_C10_witness :
    MIN_INTERVAL = 5 ∧
    (setCooldownInterval s₀ 1 0).err = none ∧
    (setCooldownInterval s₀ 1 0).st.cooldownInterval = 0 ∧
    (setCooldownInterval s₀ 1 0).events = [Event.CooldownUpdated s₀.cooldownInterval 0] :=
  claim_C10 s₀ 1 0 rfl

end FarmingSimFHE
